import Mathlib

/-
  Verification development for the acquisition-and-model core of
  `src/main (1).py` (function `plot_example`).

  Embedding choices:
  * Device output is a finite list of already-decoded text lines; a decode
    failure raises UnicodeDecodeError, a subclass of ValueError, so it is
    absorbed by the same handler as a parse failure and the read primitive
    is modelled as total.
  * Python floats produced by `float(str)` on decimal text are embedded as
    exact rationals; the theoretical curve, which uses `math.exp`, is
    embedded over the reals.
  * The serial-port side effects of one `plot_example` invocation are
    recorded as an explicit trace of operations.
-/

namespace Lab0

/-- Longest prefix of decimal digits of a character list, with the rest. -/
def takeDigits : List Char → List Char × List Char
  | [] => ([], [])
  | c :: rest =>
      if c.isDigit then
        let p := takeDigits rest
        (c :: p.1, p.2)
      else ([], c :: rest)

/-- Numeric value of a digit string, most significant digit first. -/
def digitsToNat (l : List Char) : ℕ :=
  l.foldl (fun n c => 10 * n + (c.toNat - 48)) 0

/-- An optional leading sign, as in CPython float parsing. -/
def readSign : List Char → ℤ × List Char
  | '+' :: r => (1, r)
  | '-' :: r => (-1, r)
  | r => (1, r)

/-- Python `str.strip()` with no argument: remove leading and trailing
    whitespace of the whole string. -/
def trimChars (cs : List Char) : List Char :=
  ((cs.dropWhile Char.isWhitespace).reverse.dropWhile Char.isWhitespace).reverse

/-- Python `str.split(comma)`: cut at every comma, keeping empty fields, so
    the empty string gives one empty field and a trailing comma gives a
    trailing empty field. -/
def splitOnComma : List Char → List (List Char)
  | [] => [[]]
  | c :: rest =>
      if c = ',' then [] :: splitOnComma rest
      else
        match splitOnComma rest with
        | [] => [[c]]
        | f :: r => (c :: f) :: r

/-- Finish a float literal: either the end of input, or an exponent marker
    `e`/`E`, an optional sign and digits consuming the whole rest. Returns
    the signed decimal exponent. -/
def parseExpPart (cs : List Char) : Option ℤ :=
  match cs with
  | [] => some 0
  | c :: rest =>
      if c = 'e' ∨ c = 'E' then
        let s := readSign rest
        let d := takeDigits s.2
        if d.1.isEmpty ∨ ¬ d.2.isEmpty then none
        else some (s.1 * (digitsToNat d.1 : ℤ))
      else none

/-- Unsigned part of a float literal: digits with an optional single decimal
    point (at least one digit overall), then an optional exponent. Returns
    the integer digits, the fraction digits and the exponent. -/
def parseUnsigned (cs : List Char) : Option (List Char × List Char × ℤ) :=
  let ip := takeDigits cs
  match ip.2 with
  | '.' :: rest2 =>
      let fp := takeDigits rest2
      if ip.1.isEmpty ∧ fp.1.isEmpty then none
      else (parseExpPart fp.2).map (fun e => (ip.1, fp.1, e))
  | _ =>
      if ip.1.isEmpty then none
      else (parseExpPart ip.2).map (fun e => (ip.1, [], e))

/-- Exact value of the decimal literal `sign ip . fp e`, as a rational:
    sign times the mantissa digits scaled by ten to the net exponent. -/
def decValue (sign : ℤ) (ip fp : List Char) (e : ℤ) : ℚ :=
  let m : ℤ := sign * (digitsToNat (ip ++ fp) : ℤ)
  let n : ℤ := e - fp.length
  if 0 ≤ n then mkRat (m * (10 : ℤ) ^ n.toNat) 1
  else mkRat m ((10 : ℕ) ^ (-n).toNat)

/-- Model of CPython `float(s)` on finite decimal text: surrounding
    whitespace is stripped by `float` itself, then an optional sign and a
    decimal literal with optional fraction and exponent. Returns the exact
    rational value of the literal, or `none` where `float` raises
    ValueError. -/
def pyFloatChars (cs : List Char) : Option ℚ :=
  let p := readSign (trimChars cs)
  (parseUnsigned p.2).map (fun v => decValue p.1 v.1 v.2.1 v.2.2)

/-- `float` applied to a whole string. -/
def pyFloat (s : String) : Option ℚ := pyFloatChars s.data

/-- One pass of the try block of the read loop over the line just read:
    `data.strip()` (the line is stripped as a whole), then
    `times_str, volts_str = data.split(comma)` which raises ValueError unless
    the split yields exactly two fields, then `float` on each field.
    `none` is any ValueError raised inside the try block. -/
def parseLine (data : String) : Option (ℚ × ℚ) :=
  match splitOnComma (trimChars data.data) with
  | [ts, vs] =>
      match pyFloatChars ts, pyFloatChars vs with
      | some t, some v => some (t, v)
      | _, _ => none
  | _ => none

/-- Mutable state of the read loop in `plot_example`: the two sample lists
    and the loop counter `stop_condition`. -/
structure AcqState where
  times : List ℚ
  volts : List ℚ
  stop_condition : ℕ
  deriving Repr, DecidableEq

/-- State at loop entry: `times = []`, `volts = []`, `stop_condition = 0`. -/
def initState : AcqState := ⟨[], [], 0⟩

/-- One iteration of the loop body on the line just read: on a successful
    parse both floats are converted, both appended, and the counter is
    advanced by 10; the except ValueError branch only prints and leaves the
    state unchanged. -/
def acqStep (st : AcqState) (line : String) : AcqState :=
  match parseLine line with
  | some tv =>
      { times := st.times ++ [tv.1]
        volts := st.volts ++ [tv.2]
        stop_condition := st.stop_condition + 10 }
  | none => st

/-- The `while stop_condition <= 1990` loop run over a finite stream of
    device lines: each iteration reads the next available line while the
    guard holds. -/
def acqLoop : AcqState → List String → AcqState
  | st, [] => st
  | st, line :: rest =>
      if st.stop_condition ≤ 1990 then acqLoop (acqStep st line) rest
      else st

/-- Serial-port operations a `plot_example` invocation can perform on the
    session handle. -/
inductive SerialOp
  | openPort
  | writeTrigger
  | readLine
  | closePort
  deriving Repr, DecidableEq

/-- Errors surfaced out of the core uncaught. `serial.Serial` raises
    SerialException when the port cannot be opened; nothing in
    `plot_example` catches it. -/
inductive CoreError
  | deviceUnavailable
  deriving Repr, DecidableEq

/-- Environment of one invocation: whether `serial.Serial(serial_port,
    baud_rate, timeout=1)` succeeds, and the stream of decoded lines the
    device produces. -/
structure Env where
  openOk : Bool
  lines : List String

/-- Result of a completed invocation: the collected samples in arrival
    order, the final counter, and whether the code ever called close on
    the session handle before returning. -/
structure RunResult where
  observed : List (ℚ × ℚ)
  finalCounter : ℕ
  handleClosed : Bool
  deriving Repr, DecidableEq

/-- Serial operations performed by the read loop: one `ser.readline()` per
    iteration while the guard holds. -/
def acqTrace : AcqState → List String → List SerialOp
  | _, [] => []
  | st, line :: rest =>
      if st.stop_condition ≤ 1990 then SerialOp.readLine :: acqTrace (acqStep st line) rest
      else []

/-- The acquisition part of `plot_example`: open the port (SerialException
    propagates as `deviceUnavailable` before any list exists), write the
    trigger byte, run the read loop, then fall through to plotting without
    any call to `ser.close()`. -/
def plot_example_core (env : Env) : Except CoreError RunResult :=
  if env.openOk then
    let final := acqLoop initState env.lines
    Except.ok
      { observed := final.times.zip final.volts
        finalCounter := final.stop_condition
        handleClosed := false }
  else Except.error CoreError.deviceUnavailable

/-- Full serial-operation trace of one invocation: the open attempt, then
    on success the trigger write and the read loop. No close operation
    appears anywhere in `plot_example`. -/
def runTrace (env : Env) : List SerialOp :=
  if env.openOk then
    SerialOp.openPort :: SerialOp.writeTrigger :: acqTrace initState env.lines
  else [SerialOp.openPort]

/-- Number of read attempts in a trace. -/
def countReads (tr : List SerialOp) : ℕ :=
  (tr.filter (fun op => op = SerialOp.readLine)).length

/-- Number of close operations in a trace. -/
def countCloses (tr : List SerialOp) : ℕ :=
  (tr.filter (fun op => op = SerialOp.closePort)).length

/-- `VMAX = 3.094` from the source. -/
noncomputable def VMAX : ℝ := 3.094

/-- `R = 90.4e3` from the source. -/
noncomputable def R : ℝ := 90.4e3

/-- `C = 3.3e-6` from the source. -/
noncomputable def Cap : ℝ := 3.3e-6

/-- The comprehension body of `theory_volts`:
    `VMAX * (1 - math.exp(-t / (R * C * 1000)))`. -/
noncomputable def theoryVolt (t : ℕ) : ℝ :=
  VMAX * (1 - Real.exp (-(t : ℝ) / (R * Cap * 1000)))

/-- `theory_times = list(range(2000))`. -/
def theory_times : List ℕ := List.range 2000

/-- `theory_volts = [VMAX * (1 - math.exp(-t / (R * C * 1000))) for t in
    theory_times]`. -/
noncomputable def theory_volts : List ℝ := theory_times.map theoryVolt

/- ------------------------------------------------------------------ -/
/- Helper lemmas                                                      -/
/- ------------------------------------------------------------------ -/

theorem acqStep_of_none {line : String} (st : AcqState)
    (h : parseLine line = none) : acqStep st line = st := by
  simp [acqStep, h]

theorem acqStep_of_some {line : String} {tv : ℚ × ℚ} (st : AcqState)
    (h : parseLine line = some tv) :
    acqStep st line =
      ⟨st.times ++ [tv.1], st.volts ++ [tv.2], st.stop_condition + 10⟩ := by
  simp [acqStep, h]

theorem acqStep_length (st : AcqState) (line : String)
    (h : st.times.length = st.volts.length) :
    (acqStep st line).times.length = (acqStep st line).volts.length := by
  cases hp : parseLine line with
  | none => simp [acqStep_of_none st hp, h]
  | some tv => simp [acqStep_of_some st hp, h]

theorem acqLoop_length (lines : List String) :
    ∀ st : AcqState, st.times.length = st.volts.length →
      (acqLoop st lines).times.length = (acqLoop st lines).volts.length := by
  induction lines with
  | nil => intro st h; simpa [acqLoop] using h
  | cons line rest ih =>
      intro st h
      by_cases hg : st.stop_condition ≤ 1990
      · simpa [acqLoop, hg] using ih (acqStep st line) (acqStep_length st line h)
      · simpa [acqLoop, hg] using h

theorem countReads_cons_read (tr : List SerialOp) :
    countReads (SerialOp.readLine :: tr) = countReads tr + 1 := by
  simp [countReads]

theorem countCloses_acqTrace (lines : List String) :
    ∀ st : AcqState, countCloses (acqTrace st lines) = 0 := by
  induction lines with
  | nil => intro st; simp [acqTrace, countCloses]
  | cons line rest ih =>
      intro st
      by_cases hg : st.stop_condition ≤ 1990
      · simpa [acqTrace, hg, countCloses] using ih (acqStep st line)
      · simp [acqTrace, hg, countCloses]

theorem acqTrace_allGood_count (lines : List String) :
    ∀ k : ℕ, (∀ l ∈ lines, (parseLine l).isSome) → k ≤ 200 →
      ∀ st : AcqState, st.stop_condition = 10 * k →
        countReads (acqTrace st lines) = min lines.length (200 - k) := by
  induction lines with
  | nil => intro k _ _ st _; simp [acqTrace, countReads]
  | cons line rest ih =>
      intro k hgood hk st hst
      by_cases hk199 : k ≤ 199
      · have hguard : st.stop_condition ≤ 1990 := by omega
        have hparse : (parseLine line).isSome := hgood line (by simp)
        obtain ⟨tv, htv⟩ := Option.isSome_iff_exists.mp hparse
        have hstep : (acqStep st line).stop_condition = 10 * (k + 1) := by
          rw [acqStep_of_some st htv]; dsimp only; omega
        have hrec := ih (k + 1) (fun l hl => hgood l (by simp [hl]))
          (by omega) (acqStep st line) hstep
        rw [acqTrace, if_pos hguard, countReads_cons_read, hrec]
        simp only [List.length_cons]
        omega
      · have hguard : ¬ st.stop_condition ≤ 1990 := by omega
        rw [acqTrace, if_neg hguard]
        have : k = 200 := by omega
        simp [countReads, this]

theorem acqLoop_allGood_counter (lines : List String) :
    ∀ k : ℕ, (∀ l ∈ lines, (parseLine l).isSome) → k ≤ 200 →
      ∀ st : AcqState, st.stop_condition = 10 * k →
        (acqLoop st lines).stop_condition = 10 * min (k + lines.length) 200 := by
  induction lines with
  | nil => intro k _ hk st hst; simp [acqLoop, hst]; omega
  | cons line rest ih =>
      intro k hgood hk st hst
      by_cases hk199 : k ≤ 199
      · have hguard : st.stop_condition ≤ 1990 := by omega
        have hparse : (parseLine line).isSome := hgood line (by simp)
        obtain ⟨tv, htv⟩ := Option.isSome_iff_exists.mp hparse
        have hstep : (acqStep st line).stop_condition = 10 * (k + 1) := by
          rw [acqStep_of_some st htv]; dsimp only; omega
        have hrec := ih (k + 1) (fun l hl => hgood l (by simp [hl]))
          (by omega) (acqStep st line) hstep
        rw [acqLoop, if_pos hguard, hrec]
        simp only [List.length_cons]
        omega
      · have hguard : ¬ st.stop_condition ≤ 1990 := by omega
        rw [acqLoop, if_neg hguard, hst]
        have : k = 200 := by omega
        omega

theorem length_theory_times : theory_times.length = 2000 := by
  simp [theory_times]

theorem length_theory_volts : theory_volts.length = 2000 := by
  simp [theory_volts, theory_times]

theorem theory_times_get (t : ℕ) (h : t < theory_times.length) :
    theory_times.get ⟨t, h⟩ = t := by
  simp [theory_times]

theorem theory_volts_get (t : ℕ) (h : t < theory_volts.length) :
    theory_volts.get ⟨t, h⟩ = theoryVolt t := by
  simp [theory_volts, theory_times]

theorem tau_pos : (0 : ℝ) < R * Cap * 1000 := by
  unfold R Cap; norm_num

theorem VMAX_pos : (0 : ℝ) < VMAX := by
  unfold VMAX; norm_num

theorem theoryVolt_lt {i j : ℕ} (h : i < j) : theoryVolt i < theoryVolt j := by
  unfold theoryVolt
  have hij : (i : ℝ) < (j : ℝ) := by exact_mod_cast h
  have hexp : Real.exp (-(j : ℝ) / (R * Cap * 1000)) <
      Real.exp (-(i : ℝ) / (R * Cap * 1000)) := by
    apply Real.exp_lt_exp.mpr
    apply div_lt_div_of_pos_right ?_ tau_pos
    linarith
  have := VMAX_pos
  nlinarith

theorem theoryVolt_zero : theoryVolt 0 = 0 := by
  simp [theoryVolt]

theorem theoryVolt_lt_VMAX (t : ℕ) : theoryVolt t < VMAX := by
  unfold theoryVolt
  have hexp := Real.exp_pos (-(t : ℝ) / (R * Cap * 1000))
  have := VMAX_pos
  nlinarith

/- ------------------------------------------------------------------ -/
/- Claims                                                             -/
/- ------------------------------------------------------------------ -/

set_option maxRecDepth 20000 in
/-- C1 counterexample: the counter does not advance on a failed parse
    (it stays 0 instead of becoming 10), and a session fed 201 malformed
    lines performs 201 read attempts, not exactly 200. -/
theorem C1_counterexample :
    (acqStep initState "garbage").stop_condition = 0 ∧
    countReads (runTrace ⟨true, List.replicate 201 "garbage"⟩) = 201 := by
  constructor
  · rfl
  · decide

/-- C1 amended: the Termination Counter advances by 10 only on read
    attempts whose line parses successfully; a failed parse leaves it
    unchanged. Hence with max_count = 2000 the loop stops after exactly 200
    successful parses: a stream of well-formed lines gets exactly 200 read
    attempts and a final counter of 2000, while malformed lines consume
    read attempts without advancing the counter. -/
theorem C1_counter_only_on_success (st : AcqState) (badline : String)
    (goodlines : List String)
    (hbad : parseLine badline = none)
    (hgood : ∀ l ∈ goodlines, (parseLine l).isSome)
    (hlen : 200 ≤ goodlines.length) :
    (acqStep st badline).stop_condition = st.stop_condition ∧
    (∀ (st2 : AcqState) (line : String) (tv : ℚ × ℚ),
        parseLine line = some tv →
        (acqStep st2 line).stop_condition = st2.stop_condition + 10) ∧
    countReads (acqTrace initState goodlines) = 200 ∧
    (acqLoop initState goodlines).stop_condition = 2000 := by
  refine ⟨?_, ?_, ?_, ?_⟩
  · rw [acqStep_of_none st hbad]
  · intro st2 line tv h
    rw [acqStep_of_some st2 h]
  · have h := acqTrace_allGood_count goodlines 0 hgood (by omega) initState rfl
    rw [h]; omega
  · have h := acqLoop_allGood_counter goodlines 0 hgood (by omega) initState rfl
    rw [h]; omega

set_option maxRecDepth 20000 in
/-- C1 witness: instantiation at a malformed line and a stream of 200
    well-formed lines. -/
theorem C1_witness :
    (acqStep initState "garbage").stop_condition = initState.stop_condition ∧
    (∀ (st2 : AcqState) (line : String) (tv : ℚ × ℚ),
        parseLine line = some tv →
        (acqStep st2 line).stop_condition = st2.stop_condition + 10) ∧
    countReads (acqTrace initState (List.replicate 200 "1,2")) = 200 ∧
    (acqLoop initState (List.replicate 200 "1,2")).stop_condition = 2000 :=
  C1_counter_only_on_success initState "garbage" (List.replicate 200 "1,2")
    (by decide) (by decide) (by decide)

/-- C2 counterexample: a run that opens the port, reads one good line and
    exits the loop ends with a trace containing no close operation and a
    result whose handle was never closed. -/
theorem C2_counterexample :
    runTrace ⟨true, ["12,1.5"]⟩ =
      [SerialOp.openPort, SerialOp.writeTrigger, SerialOp.readLine] ∧
    plot_example_core ⟨true, ["12,1.5"]⟩ =
      Except.ok ⟨[(12, 1.5)], 10, false⟩ := by
  constructor
  · rfl
  · rw [show (1.5 : ℚ) = mkRat 3 2 from by norm_num [mkRat, Rat.normalize]]
    rfl

/-- C2 amended: `plot_example` never closes the Session Handle: whenever an
    invocation completes normally, its serial trace contains no close
    operation and control leaves with the connection still open; the handle
    is released only later by interpreter object finalization. -/
theorem C2_never_closed (env : Env) (r : RunResult)
    (h : plot_example_core env = Except.ok r) :
    countCloses (runTrace env) = 0 ∧ r.handleClosed = false := by
  constructor
  · by_cases ho : env.openOk
    · simp [runTrace, ho, countCloses]
      have h0 := countCloses_acqTrace env.lines initState
      simpa [countCloses] using h0
    · simp [runTrace, ho, countCloses]
  · by_cases ho : env.openOk
    · simp [plot_example_core, ho] at h
      rw [← h]
    · simp [plot_example_core, ho] at h

/-- C2 witness: instantiation at a one-line run. -/
theorem C2_witness :
    countCloses (runTrace ⟨true, ["12,1.5"]⟩) = 0 ∧
    (⟨[(12, mkRat 3 2)], 10, false⟩ : RunResult).handleClosed = false :=
  C2_never_closed ⟨true, ["12,1.5"]⟩ ⟨[(12, mkRat 3 2)], 10, false⟩ rfl

/-- C3: for every integer t in the domain, the theoretical series pairs
    time t with voltage VMAX times one minus the exponential of minus t
    over R times C times 1000; the generating function is total and
    deterministic by construction. -/
theorem C3_signal_model (t : ℕ) (ht : t < 2000) :
    theory_times.get ⟨t, by rw [length_theory_times]; exact ht⟩ = t ∧
    theory_volts.get ⟨t, by rw [length_theory_volts]; exact ht⟩ =
      VMAX * (1 - Real.exp (-(t : ℝ) / (R * Cap * 1000))) :=
  ⟨theory_times_get t _, theory_volts_get t _⟩

/-- C3 witness: instantiation at t = 7. -/
theorem C3_witness :
    theory_times.get ⟨7, by rw [length_theory_times]; norm_num⟩ = 7 ∧
    theory_volts.get ⟨7, by rw [length_theory_volts]; norm_num⟩ =
      VMAX * (1 - Real.exp (-((7 : ℕ) : ℝ) / (R * Cap * 1000))) :=
  C3_signal_model 7 (by norm_num)

/-- C4: on the stream of the five example lines the session collects
    exactly the two well-formed samples, in arrival order, absorbing the
    malformed lines, and the loop guard still holds afterwards. -/
theorem C4_parse_robustness :
    plot_example_core ⟨true, ["12,1.5", "garbage", "30,", "abc,def", "45,2.1"]⟩ =
      Except.ok ⟨[(12, 1.5), (45, 2.1)], 20, false⟩ ∧
    (acqLoop initState
      ["12,1.5", "garbage", "30,", "abc,def", "45,2.1"]).stop_condition ≤ 1990 := by
  constructor
  · rw [show (1.5 : ℚ) = mkRat 3 2 from by norm_num [mkRat, Rat.normalize],
        show (2.1 : ℚ) = mkRat 21 10 from by norm_num [mkRat, Rat.normalize]]
    rfl
  · decide

/-- C5: when the port cannot be opened the invocation fails with
    DeviceUnavailable and performs nothing beyond the open attempt: no
    trigger, no read, no sample. -/
theorem C5_device_unavailable (env : Env) (h : env.openOk = false) :
    plot_example_core env = Except.error CoreError.deviceUnavailable ∧
    runTrace env = [SerialOp.openPort] := by
  simp [plot_example_core, runTrace, h]

/-- C5 witness: instantiation at a failing port with pending device
    lines. -/
theorem C5_witness :
    plot_example_core ⟨false, ["12,1.5"]⟩ =
      Except.error CoreError.deviceUnavailable ∧
    runTrace ⟨false, ["12,1.5"]⟩ = [SerialOp.openPort] :=
  C5_device_unavailable ⟨false, ["12,1.5"]⟩ rfl

/-- C6: an invocation whose port opens always completes normally, whatever
    the lines contain, and the only error an invocation can surface is
    DeviceUnavailable, which happens exactly when the port fails to
    open. -/
theorem C6_error_propagation (env : Env) :
    (env.openOk = true → ∃ r : RunResult, plot_example_core env = Except.ok r) ∧
    (∀ e : CoreError, plot_example_core env = Except.error e →
      e = CoreError.deviceUnavailable ∧ env.openOk = false) := by
  constructor
  · intro h
    refine ⟨⟨(acqLoop initState env.lines).times.zip (acqLoop initState env.lines).volts,
      (acqLoop initState env.lines).stop_condition, false⟩, ?_⟩
    simp [plot_example_core, h]
  · intro e he
    cases ho : env.openOk
    · cases e
      exact ⟨rfl, rfl⟩
    · simp [plot_example_core, ho] at he

/-- C6 witness: a run whose every line is malformed still completes
    normally. -/
theorem C6_witness :
    ∃ r : RunResult,
      plot_example_core ⟨true, ["garbage", "xyz"]⟩ = Except.ok r :=
  (C6_error_propagation ⟨true, ["garbage", "xyz"]⟩).1 rfl

/-- C7: the theoretical series always has exactly 2000 entries. -/
theorem C7_theory_length :
    theory_volts.length = 2000 ∧ theory_times.length = 2000 :=
  ⟨length_theory_volts, length_theory_times⟩

/-- C8: with the fixed device parameters the series starts at the pair
    of time 0 and voltage 0, the voltages are strictly increasing across
    the whole domain, and the last voltage stays strictly below 3.094. -/
theorem C8_model_shape (i j : ℕ) (hij : i < j) (hj : j < 2000) :
    theory_times.get ⟨0, by rw [length_theory_times]; norm_num⟩ = 0 ∧
    theory_volts.get ⟨0, by rw [length_theory_volts]; norm_num⟩ = 0 ∧
    theory_volts.get ⟨i, by rw [length_theory_volts]; omega⟩ <
      theory_volts.get ⟨j, by rw [length_theory_volts]; exact hj⟩ ∧
    theory_volts.get ⟨1999, by rw [length_theory_volts]; norm_num⟩ < 3.094 := by
  refine ⟨theory_times_get 0 _, ?_, ?_, ?_⟩
  · rw [theory_volts_get]
    exact theoryVolt_zero
  · rw [theory_volts_get, theory_volts_get]
    exact theoryVolt_lt hij
  · rw [theory_volts_get, show (3.094 : ℝ) = VMAX from rfl]
    exact theoryVolt_lt_VMAX 1999

/-- C8 witness: instantiation at indices 5 and 6. -/
theorem C8_witness :
    theory_times.get ⟨0, by rw [length_theory_times]; norm_num⟩ = 0 ∧
    theory_volts.get ⟨0, by rw [length_theory_volts]; norm_num⟩ = 0 ∧
    theory_volts.get ⟨5, by rw [length_theory_volts]; omega⟩ <
      theory_volts.get ⟨6, by rw [length_theory_volts]; norm_num⟩ ∧
    theory_volts.get ⟨1999, by rw [length_theory_volts]; norm_num⟩ < 3.094 :=
  C8_model_shape 5 6 (by norm_num) (by norm_num)

/-- C9 counterexample: a line whose fields carry whitespace around the
    numbers is accepted, because `float` strips whitespace per field. -/
theorem C9_counterexample :
    parseLine "12 , 1.5" = some (12, 1.5) := by
  rw [show (1.5 : ℚ) = mkRat 3 2 from by norm_num [mkRat, Rat.normalize]]
  rfl

/-- C9 amended: the whole line is stripped of surrounding whitespace, and
    each comma-separated field additionally tolerates leading and trailing
    whitespace of its own because the numeric conversion strips it; only
    whitespace interior to a number makes the line a parse failure. -/
theorem C9_whitespace_tolerance :
    parseLine "  12,1.5  " = some (12, 1.5) ∧
    parseLine "12 , 1.5" = some (12, 1.5) ∧
    parseLine "1 2,1.5" = none ∧
    parseLine "12,1 .5" = none := by
  rw [show (1.5 : ℚ) = mkRat 3 2 from by norm_num [mkRat, Rat.normalize]]
  exact ⟨rfl, rfl, rfl, rfl⟩

/-- C10: whatever prefix of the stream has been consumed, the times list
    and the volts list have the same length, because each iteration either
    appends one element to each after converting both floats, or appends
    to neither. -/
theorem C10_parallel_lists (lines : List String) (n : ℕ) :
    (acqLoop initState (lines.take n)).times.length =
      (acqLoop initState (lines.take n)).volts.length ∧
    (∀ (st : AcqState) (line : String),
      acqStep st line = st ∨
      ∃ tv : ℚ × ℚ, acqStep st line =
        ⟨st.times ++ [tv.1], st.volts ++ [tv.2], st.stop_condition + 10⟩) := by
  refine ⟨acqLoop_length (lines.take n) initState rfl, ?_⟩
  intro st line
  cases hp : parseLine line with
  | none => exact Or.inl (acqStep_of_none st hp)
  | some tv => exact Or.inr ⟨tv, acqStep_of_some st hp⟩

end Lab0
